import Mathlib

/-!
Shallow embedding of the motion-analysis core of the Motion-Tracker repository
(src/services/motionAnalyzer.ts together with the data model of src/types.ts),
and proofs of the specification's testable properties against it.

Numeric idealization: the JavaScript source computes with IEEE-754 doubles; the
embedding computes with exact rationals, represented by the canonical-form
fraction type Q below (a kernel-evaluable clone of the rationals: every
operation renormalizes, so equal values are structurally equal).  Math.sqrt is
modelled by ratSqrt, which is exact on perfect-square rationals; every concrete
trace in this file moves hands along a single axis, so each dx*dx + dy*dy that
is evaluated is the square of a rational and ratSqrt agrees with the
mathematical square root there.  The universally-quantified theorems never
depend on the value of a square root.
-/

namespace MotionTracker

/-- Exact rational number in canonical form (reduced, non-negative denominator
sign carried by the numerator).  All arithmetic goes through Q.mk, which
renormalizes, so arithmetic results compare correctly under structural
equality. -/
structure Q where
  num : Int
  den : Nat
deriving DecidableEq

/-- Build the canonical representative of the fraction n / d. -/
def Q.make (n : Int) (d : Nat) : Q :=
  let g := n.natAbs.gcd d
  if g = 0 then ⟨0, 1⟩
  else
    let nn := n.natAbs / g
    let dd := d / g
    if 0 ≤ n then ⟨(nn : Int), dd⟩ else ⟨-(nn : Int), dd⟩

instance (n : ℕ) : OfNat Q n := ⟨⟨(n : Int), 1⟩⟩

/-- Embed a natural number (used for the buffer-length divisor). -/
def Q.ofNat (n : ℕ) : Q := ⟨(n : Int), 1⟩

def Q.add (a b : Q) : Q := Q.make (a.num * b.den + b.num * a.den) (a.den * b.den)

def Q.neg (a : Q) : Q := ⟨-a.num, a.den⟩

def Q.sub (a b : Q) : Q := a.add b.neg

def Q.mul (a b : Q) : Q := Q.make (a.num * b.num) (a.den * b.den)

/-- Division.  The zero-divisor branch is unreachable in the modelled code (the
only variable divisor, the buffer length, is guarded to be nonzero). -/
def Q.div (a b : Q) : Q :=
  if b.num = 0 then ⟨0, 1⟩
  else if 0 < b.num then Q.make (a.num * b.den) (a.den * b.num.natAbs)
  else Q.make (-(a.num * b.den)) (a.den * b.num.natAbs)

instance : Add Q := ⟨Q.add⟩
instance : Neg Q := ⟨Q.neg⟩
instance : Sub Q := ⟨Q.sub⟩
instance : Mul Q := ⟨Q.mul⟩
instance : Div Q := ⟨Q.div⟩

instance : LT Q := ⟨fun a b => a.num * (b.den : Int) < b.num * (a.den : Int)⟩

instance (a b : Q) : Decidable (a < b) :=
  inferInstanceAs (Decidable (a.num * (b.den : Int) < b.num * (a.den : Int)))

/-- A 3D point (src/types.ts, interface Point). -/
structure Point where
  x : Q
  y : Q
  z : Q
deriving DecidableEq

/-- Hand identity (src/types.ts, enum Handedness). -/
inductive Handedness where
  | Left
  | Right
deriving DecidableEq

/-- Event kind (src/types.ts, MotionEvent.type : 'START' | 'STOP'). -/
inductive EventType where
  | START
  | STOP
deriving DecidableEq

/-- A motion event (src/types.ts, interface MotionEvent).  The optional fields
are Option-valued exactly as in the TypeScript interface. -/
structure MotionEvent where
  id : String
  hand : Handedness
  type : EventType
  timestamp : Q
  duration : Option Q := none
  distance : Option Q := none
  orderIndex : Option ℕ := none
deriving DecidableEq

/-- Per-frame readout (src/types.ts, interface HandData). -/
structure HandData where
  handedness : Handedness
  landmarks : List Point
  velocity : Q
  isMoving : Bool
  score : Q
deriving DecidableEq

/-- Tracker configuration (src/types.ts, interface TrackerConfig). -/
structure TrackerConfig where
  threshold : Q
  smoothingFrames : ℕ
  minDurationFrames : ℕ
deriving DecidableEq

/-- Moving-average FIFO buffer (motionAnalyzer.ts lines 4-28, class
VelocityBuffer). -/
structure VelocityBuffer where
  buffer : List Q
  size : ℕ
deriving DecidableEq

/-- VelocityBuffer.add (lines 12-17): push the sample, then shift the oldest
sample out if the length now exceeds the capacity. -/
def VelocityBuffer.add (vb : VelocityBuffer) (val : Q) : VelocityBuffer :=
  let b := vb.buffer ++ [val]
  if vb.size < b.length then { vb with buffer := b.tail } else { vb with buffer := b }

/-- VelocityBuffer.average (lines 19-23): arithmetic mean of the current
contents (reduce with initial accumulator 0, divided by the length), and 0 when
the buffer is empty. -/
def VelocityBuffer.average (vb : VelocityBuffer) : Q :=
  if vb.buffer = [] then 0
  else (vb.buffer.foldl (fun a b => a + b) 0) / Q.ofNat vb.buffer.length

/-- Mutable per-hand state (motionAnalyzer.ts lines 30-38, interface
HandState). -/
structure HandState where
  isMoving : Bool
  motionStartTime : Option Q
  lastPosition : Option Point
  totalDistance : Q
  velocityBuffer : VelocityBuffer
  framesBelowThreshold : ℕ
  framesAboveThreshold : ℕ
deriving DecidableEq

/-- createHandState (lines 54-64): fresh idle state with an empty buffer of
capacity smoothingFrames. -/
def createHandState (cfg : TrackerConfig) : HandState :=
  ⟨false, none, none, 0, ⟨[], cfg.smoothingFrames⟩, 0, 0⟩

/-- Bounded binary search for the integer square root (fuel 64, enough for any
input below 2^64).  Exact on perfect squares, which is the only case this
development ever evaluates it on. -/
def isqrtGo (n : ℕ) : ℕ → ℕ → ℕ → ℕ
  | 0, lo, _ => lo
  | fuel + 1, lo, hi =>
    if hi ≤ lo then lo
    else
      let m := (lo + hi + 1) / 2
      if m * m ≤ n then isqrtGo n fuel m hi else isqrtGo n fuel lo (m - 1)

/-- Integer square root used by ratSqrt. -/
def isqrt (n : ℕ) : ℕ := isqrtGo n 64 0 n

/-- Math.sqrt (line 117) idealized over the rationals.  A canonical-form
rational that is the square of a rational c/d has numerator c^2 and denominator
d^2, so ratSqrt is exact there; no theorem below relies on its value
elsewhere. -/
def ratSqrt (q : Q) : Q := Q.make (isqrt q.num.toNat) (isqrt q.den)

/-- Lines 100-107: the representative point of a visible hand is the midpoint
of landmarks[0] (wrist) and landmarks[9] (middle-finger MCP). -/
def representativePoint (p1 p2 : Point) : Point :=
  ⟨(p1.x + p2.x) / 2, (p1.y + p2.y) / 2, (p1.z + p2.z) / 2⟩

/-- Lines 109-121: instantaneous velocity.  0 on the first visible frame
(no previous position); otherwise the x/y-plane Euclidean distance from the
previous representative point, scaled by 100 (z is ignored). -/
def instVelocity (lastPosition : Option Point) (currentPos : Point) : Q :=
  match lastPosition with
  | none => 0
  | some lp =>
    let dx := currentPos.x - lp.x
    let dy := currentPos.y - lp.y
    ratSqrt (dx * dx + dy * dy) * 100

/-- Result of one analyzeHand call: the updated hand state, the two updated
shared counters, the events pushed during the call, and the metrics readout
(null for an absent hand). -/
structure HandStep where
  state : HandState
  eventCounter : ℕ
  moveOrderCounter : ℕ
  events : List MotionEvent
  metrics : Option HandData
deriving DecidableEq

/-- Lines 127-174: the hysteresis state machine, operating on the hand state
after the lastPosition / buffer updates of lines 123-125.  Two source facts are
reproduced exactly: (a) neither debounce counter is reset at a state
transition, and (b) the STOP duration is timestamp - (motionStartTime ||
timestamp), where the JavaScript || operator treats the number 0 as falsy, so
a motion whose start frame had raw timestamp 0 reports duration 0. -/
def hysteresisStep (cfg : TrackerConfig) (sessionStartTime timestamp : Q)
    (handedness : Handedness) (instVel smoothed : Q) (state : HandState)
    (eventCounter moveOrderCounter : ℕ) : HandState × ℕ × ℕ × List MotionEvent :=
  if state.isMoving = false then
    if smoothed > cfg.threshold then
      let st := { state with framesAboveThreshold := state.framesAboveThreshold + 1 }
      if st.framesAboveThreshold ≥ cfg.minDurationFrames then
        let st2 := { st with isMoving := true, motionStartTime := some timestamp,
                             totalDistance := 0 }
        let ev : MotionEvent :=
          { id := "evt_" ++ toString eventCounter, hand := handedness, type := .START,
            timestamp := timestamp - sessionStartTime,
            orderIndex := some (moveOrderCounter + 1) }
        (st2, eventCounter + 1, moveOrderCounter + 1, [ev])
      else
        (st, eventCounter, moveOrderCounter, [])
    else
      ({ state with framesAboveThreshold := 0 }, eventCounter, moveOrderCounter, [])
  else
    let st := { state with totalDistance := state.totalDistance + instVel }
    if smoothed < cfg.threshold * Q.make 1 2 then
      let st2 := { st with framesBelowThreshold := st.framesBelowThreshold + 1 }
      if st2.framesBelowThreshold ≥ cfg.minDurationFrames then
        let st3 := { st2 with isMoving := false }
        let dur := timestamp - (match st3.motionStartTime with
          | none => timestamp
          | some t0 => if t0 = 0 then timestamp else t0)
        let ev : MotionEvent :=
          { id := "evt_" ++ toString eventCounter, hand := handedness, type := .STOP,
            timestamp := timestamp - sessionStartTime, duration := some dur,
            distance := some st3.totalDistance }
        ({ st3 with motionStartTime := none }, eventCounter + 1, moveOrderCounter, [ev])
      else
        (st2, eventCounter, moveOrderCounter, [])
    else
      ({ st with framesBelowThreshold := 0 }, eventCounter, moveOrderCounter, [])

/-- MotionAnalyzer.analyzeHand (lines 87-183).  A null or empty landmark list
takes the zero-motion branch of lines 94-98 (push 0, no readout, no event,
nothing else touched).  A non-empty list with fewer than 10 entries makes the
source read landmarks[9] as undefined and then dereference it at line 104,
throwing a TypeError; this is modelled by the error branch. -/
def analyzeHand (cfg : TrackerConfig) (sessionStartTime timestamp : Q)
    (handedness : Handedness) (landmarks : Option (List Point))
    (state : HandState) (eventCounter moveOrderCounter : ℕ) :
    Except Unit HandStep :=
  match landmarks with
  | none =>
    .ok ⟨{ state with velocityBuffer := state.velocityBuffer.add 0 },
      eventCounter, moveOrderCounter, [], none⟩
  | some lms =>
    if lms.length = 0 then
      .ok ⟨{ state with velocityBuffer := state.velocityBuffer.add 0 },
        eventCounter, moveOrderCounter, [], none⟩
    else if lms.length < 10 then
      .error ()
    else
      let p1 := lms.headD ⟨0, 0, 0⟩
      let p2 := lms.getD 9 ⟨0, 0, 0⟩
      let currentPos := representativePoint p1 p2
      let v := instVelocity state.lastPosition currentPos
      let st1 := { state with lastPosition := some currentPos }
      let st2 := { st1 with velocityBuffer := st1.velocityBuffer.add v }
      let smoothed := st2.velocityBuffer.average
      let r := hysteresisStep cfg sessionStartTime timestamp handedness v smoothed
        st2 eventCounter moveOrderCounter
      .ok ⟨r.1, r.2.1, r.2.2.1, r.2.2.2,
        some ⟨handedness, lms, smoothed, r.1.isMoving, 1⟩⟩

/-- The session coordinator (motionAnalyzer.ts lines 40-52, class
MotionAnalyzer). -/
structure MotionAnalyzer where
  config : TrackerConfig
  leftHand : HandState
  rightHand : HandState
  sessionStartTime : Q
  eventCounter : ℕ
  moveOrderCounter : ℕ
deriving DecidableEq

/-- The constructor (lines 48-52): stores the configuration unexamined — no
validation of any kind is performed — and creates both hand states; the class
field initializers give sessionStartTime = 0 and zero counters. -/
def MotionAnalyzer.create (cfg : TrackerConfig) : MotionAnalyzer :=
  ⟨cfg, createHandState cfg, createHandState cfg, 0, 0, 0⟩

/-- resetSession (lines 66-72); now stands for the performance.now() reading
taken at the moment of the reset. -/
def MotionAnalyzer.resetSession (a : MotionAnalyzer) (now : Q) : MotionAnalyzer :=
  ⟨a.config, createHandState a.config, createHandState a.config, now, 0, 0⟩

/-- Result of one processFrame call. -/
structure FrameResult where
  analyzer : MotionAnalyzer
  events : List MotionEvent
  leftMetrics : Option HandData
  rightMetrics : Option HandData
deriving DecidableEq

/-- MotionAnalyzer.processFrame (lines 74-85): analyze the left hand, then the
right hand, threading the shared event and ordinal counters; the merged event
list has the left hand's events before the right hand's. -/
def MotionAnalyzer.processFrame (a : MotionAnalyzer) (timestamp : Q)
    (leftLandmarks rightLandmarks : Option (List Point)) :
    Except Unit FrameResult := do
  let l ← analyzeHand a.config a.sessionStartTime timestamp .Left leftLandmarks
    a.leftHand a.eventCounter a.moveOrderCounter
  let r ← analyzeHand a.config a.sessionStartTime timestamp .Right rightLandmarks
    a.rightHand l.eventCounter l.moveOrderCounter
  let a2 : MotionAnalyzer :=
    ⟨a.config, l.state, r.state, a.sessionStartTime, r.eventCounter, r.moveOrderCounter⟩
  return ⟨a2, l.events ++ r.events, l.metrics, r.metrics⟩

/-- One frame of input to processFrame. -/
structure Frame where
  timestamp : Q
  leftLandmarks : Option (List Point)
  rightLandmarks : Option (List Point)
deriving DecidableEq

/-- Result of a run of processFrame calls. -/
structure RunResult where
  analyzer : MotionAnalyzer
  events : List MotionEvent
deriving DecidableEq

/-- Drive processFrame over a list of frames, accumulating the merged event
log.  A frame on which processFrame throws ends the run: the caller keeps the
events returned by the earlier, successful calls. -/
def runFrames (a : MotionAnalyzer) : List Frame → RunResult
  | [] => ⟨a, []⟩
  | f :: fs =>
    match a.processFrame f.timestamp f.leftLandmarks f.rightLandmarks with
    | .error _ => ⟨a, []⟩
    | .ok r =>
      let rest := runFrames r.analyzer fs
      ⟨rest.analyzer, r.events ++ rest.events⟩

/-- Result of a run of analyzeHand calls for a single hand. -/
structure HandRun where
  state : HandState
  eventCounter : ℕ
  moveOrderCounter : ℕ
  events : List MotionEvent
  metricsLog : List (Option HandData)
deriving DecidableEq

/-- Drive analyzeHand for one hand over a list of (timestamp, landmarks)
samples, accumulating that hand's events and per-frame readouts; an erroring
sample ends the run. -/
def runHand (cfg : TrackerConfig) (sessionStartTime : Q) (handedness : Handedness) :
    HandState → ℕ → ℕ → List (Q × Option (List Point)) → HandRun
  | st, ec, mc, [] => ⟨st, ec, mc, [], []⟩
  | st, ec, mc, (t, lm) :: fs =>
    match analyzeHand cfg sessionStartTime t handedness lm st ec mc with
    | .error _ => ⟨st, ec, mc, [], []⟩
    | .ok r =>
      let rest := runHand cfg sessionStartTime handedness r.state r.eventCounter
        r.moveOrderCounter fs
      ⟨rest.state, rest.eventCounter, rest.moveOrderCounter,
        r.events ++ rest.events, r.metrics :: rest.metricsLog⟩

/-- Select one hand's state out of the analyzer. -/
def MotionAnalyzer.hand (a : MotionAnalyzer) : Handedness → HandState
  | .Left => a.leftHand
  | .Right => a.rightHand

/-- True when an Except value is the ok constructor. -/
def exceptOk {ε α : Type _} : Except ε α → Bool
  | .ok _ => true
  | .error _ => false

/-- A landmark input the analyzer handles without throwing: absent, empty, or
long enough that index 9 exists. -/
def okLandmarks : Option (List Point) → Prop
  | none => True
  | some l => l.length = 0 ∨ 10 ≤ l.length

/-- The event type an alternating log expects next: START when the flag is
true, STOP when it is false. -/
def expectedType (b : Bool) : EventType :=
  if b then .START else .STOP

/-- Check that a list of event types alternates, starting from the expectation
given by the flag. -/
def altTypes : Bool → List EventType → Bool
  | _, [] => true
  | b, e :: es => decide (e = expectedType b) && altTypes (!b) es

/-- The expectation that remains after consuming a list of event types. -/
def afterTypes : Bool → List EventType → Bool
  | b, [] => b
  | b, _ :: es => afterTypes (!b) es

/-- The representative point a visible frame computes from a landmark list
(lines 101-107; the list is known to have at least 10 entries when this is
reached). -/
def visiblePoint (lms : List Point) : Point :=
  representativePoint (lms.headD ⟨0, 0, 0⟩) (lms.getD 9 ⟨0, 0, 0⟩)

/-- The hand state after the lastPosition and buffer updates of lines 123-124
on a visible frame. -/
def visibleState (st : HandState) (lms : List Point) : HandState :=
  { st with lastPosition := some (visiblePoint lms),
            velocityBuffer := st.velocityBuffer.add (instVelocity st.lastPosition (visiblePoint lms)) }

/-- The list of n consecutive naturals counting up from s. -/
def consecutiveFrom (s : ℕ) : ℕ → List ℕ
  | 0 => []
  | n + 1 => s :: consecutiveFrom (s + 1) n

/-- Specification-side instrument (with movingRunSpeeds below) for the
distance-accounting property: the raw instantaneous speed a frame contributes
to the current Moving run — nothing unless the hand is visible on the frame
and was Moving at frame entry. -/
def runContrib (st : HandState) (lm : Option (List Point)) : List Q :=
  match lm with
  | none => []
  | some lms =>
    if lms.length = 0 then []
    else if st.isMoving then [instVelocity st.lastPosition (visiblePoint lms)]
    else []

/-- Specification-side instrument for the distance-accounting property,
following the spec sentence "Accumulated distance on Stop equals the sum of
raw (unsmoothed) per-frame instantaneous speeds recorded strictly during the
Moving interval, not including the frame that triggered Start itself": drive
the same analyzeHand steps and collect, for each completed Moving run (in
order), the list of raw instantaneous speeds of the visible frames processed
while the hand was Moving at frame entry.  The frame that fires Start enters
Idle, so it contributes nothing; the frame that fires Stop enters Moving and
contributes its speed. -/
def movingRunSpeeds (cfg : TrackerConfig) (sessionStartTime : Q) (hd : Handedness) :
    HandState → ℕ → ℕ → List Q → List (Q × Option (List Point)) → List (List Q)
  | _, _, _, _, [] => []
  | st, ec, mc, cur, (t, lm) :: fs =>
    match analyzeHand cfg sessionStartTime t hd lm st ec mc with
    | .error _ => []
    | .ok r =>
      let cur2 := cur ++ runContrib st lm
      if r.events.any (fun ev => decide (ev.type = EventType.STOP)) then
        cur2 :: movingRunSpeeds cfg sessionStartTime hd r.state r.eventCounter
          r.moveOrderCounter [] fs
      else
        movingRunSpeeds cfg sessionStartTime hd r.state r.eventCounter
          r.moveOrderCounter cur2 fs

/-- A visible landmark list that keeps the hand at the single position p (all
21 MediaPipe landmarks coincide, so the representative point is p itself; 10
entries suffice for the model since only indices 0 and 9 are read). -/
def stillLandmarks (p : Point) : List Point := List.replicate 10 p

/-- A feed of n consecutive visible frames at the fixed position p, with frame
timestamps ts 0, ts 1, .... -/
def stillFeed (p : Point) (ts : ℕ → Q) : ℕ → List (Q × Option (List Point))
  | 0 => []
  | n + 1 => (ts 0, some (stillLandmarks p)) :: stillFeed p (fun i => ts (i + 1)) n

/-- A visible landmark list (10 coinciding points) whose representative point
has the given x coordinate and y = z = 0. -/
def lmAt (x : Q) : List Point := List.replicate 10 ⟨x, 0, 0⟩

/-- The configuration of the spec's concrete scenarios and of App.tsx:
threshold 0.8, smoothing 5, debounce 5. -/
def cfgA : TrackerConfig := ⟨Q.make 8 10, 5, 5⟩

/-- A minimal configuration used for the duration bug trace. -/
def cfgB : TrackerConfig := ⟨1, 1, 1⟩

/-- Configuration for the stale-debounce-counter trace: threshold 1,
smoothing 3, debounce 2. -/
def cfgC : TrackerConfig := ⟨1, 3, 2⟩

/-- An invalid configuration per the spec's section 7: non-positive threshold,
zero smoothing capacity, zero debounce length. -/
def cfgBad : TrackerConfig := ⟨0, 0, 0⟩

/-- The concrete scenario trace of the spec (claim C1): one priming visible
frame so that every one of the ten claim frames has instantaneous speed 2.0,
then ten visible frames at timestamps 0..9 each moving 0.02 along x
(speed 0.02 * 100 = 2.0); the right hand stays absent. -/
def c1frames : List Frame :=
  ⟨0, some (lmAt 0), none⟩ ::
  (List.range 10).map (fun i => ⟨Q.ofNat i, some (lmAt (Q.make (2 * (i + 1)) 100)), none⟩)

/-- Trace for the duration bug: debounced start at raw timestamp 0, stop at
raw timestamp 6. -/
def c4frames : List Frame :=
  [⟨0, some (lmAt 0), none⟩,
   ⟨0, some (lmAt (Q.make 2 100)), none⟩,
   ⟨6, some (lmAt (Q.make 2 100)), none⟩]

/-- Ten moving frames (speed 2.0 each) after a priming frame: the hand starts
moving (Start fires at t = 5) and keeps a high smoothed velocity. -/
def movingPrefix : List Frame :=
  ⟨0, some (lmAt 0), none⟩ ::
  (List.range 10).map (fun i => ⟨Q.ofNat (i + 1), some (lmAt (Q.make (2 * (i + 1)) 100)), none⟩)

/-- Twenty absent frames at timestamps 11..30. -/
def absentRun : List Frame :=
  (List.range 20).map (fun i => ⟨Q.ofNat (i + 11), none, none⟩)

/-- The moving prefix followed by twenty absent frames: the smoothed average
decays to 0 but the hand never reappears. -/
def c6cexFrames : List Frame := movingPrefix ++ absentRun

/-- The moving prefix, five absent frames (timestamps 11..15), then five
visible frames (timestamps 16..20) at the position the hand last held. -/
def c6okFrames : List Frame :=
  movingPrefix ++
  (List.range 5).map (fun i => ⟨Q.ofNat (i + 11), none, none⟩) ++
  (List.range 5).map (fun i => ⟨Q.ofNat (i + 16), some (lmAt (Q.make 20 100)), none⟩)

/-- Trace exhibiting the stale below-threshold debounce counter (cfgC:
threshold 1, smoothing 3, debounce 2).  Frames at timestamps 1..11: a first
motion run starts at t = 3 and stops at t = 7 leaving framesBelowThreshold = 2;
a second run starts at t = 10; its first frame (t = 11, the hand held at the
same fixed position) already has smoothed velocity 4/15 < 1/2, so the stale
counter reaches 3 >= 2 and Stop fires after a single below-threshold frame of
that run. -/
def c7cexFrames : List Frame :=
  [⟨1, some (lmAt 0), none⟩,
   ⟨2, some (lmAt (Q.make 6 100)), none⟩,
   ⟨3, some (lmAt (Q.make 12 100)), none⟩,
   ⟨4, some (lmAt (Q.make 12 100)), none⟩,
   ⟨5, some (lmAt (Q.make 12 100)), none⟩,
   ⟨6, some (lmAt (Q.make 12 100)), none⟩,
   ⟨7, some (lmAt (Q.make 12 100)), none⟩,
   ⟨8, some (lmAt (Q.make 148 1000)), none⟩,
   ⟨9, some (lmAt (Q.make 152 1000)), none⟩,
   ⟨10, some (lmAt (Q.make 156 1000)), none⟩,
   ⟨11, some (lmAt (Q.make 156 1000)), none⟩]

/-- Claim C10: on a frame where a hand's landmark input is null or an empty
list, analyzeHand emits no event and returns no readout, and the hand state is
left unchanged except that 0.0 is pushed into the smoothing window: isMoving,
motion-start timestamp, last-known-position, accumulated distance and both
debounce counters are untouched.  Since the result is exactly this for every
absent frame, a hand that goes absent while Moving can emit its Stop only on a
later frame on which it is visible again. -/
theorem absentFrame_preserves_state (cfg : TrackerConfig) (s0 t : Q)
    (hd : Handedness) (st : HandState) (ec mc : ℕ) :
    analyzeHand cfg s0 t hd none st ec mc =
      .ok ⟨{ st with velocityBuffer := st.velocityBuffer.add 0 }, ec, mc, [], none⟩ ∧
    analyzeHand cfg s0 t hd (some []) st ec mc =
      .ok ⟨{ st with velocityBuffer := st.velocityBuffer.add 0 }, ec, mc, [], none⟩ :=
  ⟨rfl, rfl⟩

/-- Claim C9, counterexample: a visible, non-empty landmark list with fewer
than 10 points (here a single point) makes processFrame throw — the source
reads landmarks[9] as undefined and dereferences it at line 104 — so
processing does not take a defined branch on every degenerate input. -/
theorem shortLandmarkList_throws :
    exceptOk ((MotionAnalyzer.create cfgA).processFrame 0
      (some [⟨0, 0, 0⟩]) none) = false := by decide

/-- Claim C1, counterexample: under threshold 0.8, smoothing 5, debounce 5,
session start 0, with ten visible frames of instantaneous speed 2.0 at
timestamps 0..9 (one priming frame makes all ten speeds 2.0), the whole run
emits exactly one event: a Start with session-relative timestamp 4 and
orderIndex 1 — not timestamp 8.  The claim's premise that the smoothed
velocity first exceeds 0.8 at frame index 4 is also false: the buffer average
divides by the current length, not the capacity, so it already exceeds 0.8 at
fed frame index 0. -/
theorem concreteScenario_start_not_at_frame_eight :
    (runFrames (MotionAnalyzer.create cfgA) c1frames).events =
      [⟨"evt_0", .Left, .START, 4, none, none, some 1⟩] ∧
    ((4 : Q) ≠ 8) := by decide

/-- Claim C1, amended: in the concrete scenario the smoothed velocity exceeds
0.8 from fed frame index 0 on (the per-frame readout velocities of the eleven
processed frames are 0, 1, 4/3, 3/2, 8/5, 2, 2, 2, 2, 2, 2: the priming frame
reads 0, the first fed frame already averages 1.0 > 0.8), and the Start event
fires at fed frame index 4 — the fifth consecutive above-threshold frame —
carrying orderIndex 1 and session-relative timestamp 4. -/
theorem concreteScenario_start_at_frame_four :
    (runFrames (MotionAnalyzer.create cfgA) c1frames).events =
      [⟨"evt_0", .Left, .START, 4, none, none, some 1⟩] ∧
    (runHand cfgA 0 .Left (createHandState cfgA) 0 0
        (c1frames.map (fun f => (f.timestamp, f.leftLandmarks)))).metricsLog.map
      (Option.map HandData.velocity) =
      [some 0, some 1, some (Q.make 4 3), some (Q.make 3 2), some (Q.make 8 5),
       some 2, some 2, some 2, some 2, some 2, some 2] := by decide

/-- Claim C4 (code bug), failing trace: under threshold 1, smoothing 1,
debounce 1, frames at raw timestamps 0, 0, 6 make the Start fire at raw
timestamp 0 and the Stop at raw timestamp 6; the Stop's duration field is 0,
not 6 - 0 = 6, because the source computes timestamp - (motionStartTime ||
timestamp) and the JavaScript || operator treats the stored motion-start
timestamp 0 as falsy. -/
theorem stopDuration_zero_when_started_at_time_zero :
    (runFrames (MotionAnalyzer.create cfgB) c4frames).events.map
        (fun ev => (ev.type, ev.timestamp, ev.duration)) =
      [(EventType.START, (0 : Q), none), (EventType.STOP, (6 : Q), some (0 : Q))] ∧
    (6 : Q) - 0 ≠ (0 : Q) := by decide

/-- Claim C6, counterexample: after a debounced Start (t = 5) and sustained
speed 2.0, twenty consecutive absent frames push 0.0 into the window; the
smoothed average reaches 0 — far below the stop threshold 0.4, and for far
more than 5 consecutive frames — yet no Stop event is ever emitted and the
hand is still flagged Moving, because absent frames never evaluate the
transition logic.  A run of absent frames alone never triggers Stop. -/
theorem absentRun_alone_never_stops :
    ((runFrames (MotionAnalyzer.create cfgA) c6cexFrames).events.map
        (fun ev => (ev.type, ev.timestamp)) = [(EventType.START, (5 : Q))]) ∧
    (runFrames (MotionAnalyzer.create cfgA) c6cexFrames).analyzer.leftHand.isMoving = true ∧
    (runFrames (MotionAnalyzer.create cfgA) c6cexFrames).analyzer.leftHand.velocityBuffer.buffer
      = List.replicate 5 0 ∧
    ((runFrames (MotionAnalyzer.create cfgA) c6cexFrames).analyzer.leftHand.velocityBuffer.average
      < cfgA.threshold * Q.make 1 2) := by decide

/-- Claim C6, amended: an absent-hand frame pushes 0.0 into the smoothing
window without touching anything else (first conjunct, for every state); and
in the decay scenario — sustained speed 2.0 with Start at t = 5, then five
absent frames (t = 11..15) that drain the window to all zeros, then five
visible frames (t = 16..20) at the last held position — the Stop fires on the
fifth visible frame after reappearance, once 5 consecutive below-threshold
frames have been counted on visible frames; absence alone fires nothing. -/
theorem absentRun_stop_after_reappearance :
    (∀ (cfg : TrackerConfig) (s0 t : Q) (hd : Handedness) (st : HandState) (ec mc : ℕ),
      analyzeHand cfg s0 t hd none st ec mc =
        .ok ⟨{ st with velocityBuffer := st.velocityBuffer.add 0 }, ec, mc, [], none⟩) ∧
    ((runFrames (MotionAnalyzer.create cfgA) c6okFrames).events.map
        (fun ev => (ev.type, ev.timestamp, ev.duration, ev.distance)) =
      [(EventType.START, (5 : Q), none, none),
       (EventType.STOP, (20 : Q), some (15 : Q), some (10 : Q))]) :=
  ⟨fun _ _ _ _ _ _ _ => rfl, by decide⟩

/-- Claim C7, counterexample: with threshold 1, smoothing 3, debounce 2, the
trace c7cexFrames (frames at timestamps 1..11, one frame per unit) runs a
first motion (Start t = 3, Stop t = 7) that leaves framesBelowThreshold = 2;
a second run starts at t = 10 with that stale counter intact, and feeding the
same fixed position from t = 11 on makes the Stop fire already at t = 11 —
after only one below-stop-threshold frame within that Moving run, fewer than
the debounce length 2. -/
theorem staleBelowCounter_early_stop :
    ((runFrames (MotionAnalyzer.create cfgC) c7cexFrames).events.map
        (fun ev => (ev.type, ev.timestamp)) =
      [(EventType.START, (3 : Q)), (EventType.STOP, (7 : Q)),
       (EventType.START, (10 : Q)), (EventType.STOP, (11 : Q))]) ∧
    (runFrames (MotionAnalyzer.create cfgC)
        (c7cexFrames.take 10)).analyzer.leftHand.framesBelowThreshold = 2 ∧
    (runFrames (MotionAnalyzer.create cfgC)
        (c7cexFrames.take 10)).analyzer.leftHand.isMoving = true ∧
    1 < cfgC.minDurationFrames := by decide

/-- Claim C8, counterexample: the configuration with threshold 0, smoothing
capacity 0 and debounce length 0 is not rejected at construction: the
constructor stores it unexamined and the analyzer then processes a frame
without any error. -/
theorem invalidConfig_accepted :
    (MotionAnalyzer.create cfgBad).config = cfgBad ∧
    exceptOk ((MotionAnalyzer.create cfgBad).processFrame 0 none none) = true := by
  decide

/-- Claim C8, amended: no configuration validation exists anywhere in the
core: the constructor stores any configuration — non-positive threshold, zero
smoothing capacity, zero debounce length included — as-is, and frames are
processed without rejection. -/
theorem config_never_validated (cfg : TrackerConfig) (t : Q) :
    (MotionAnalyzer.create cfg).config = cfg ∧
    exceptOk ((MotionAnalyzer.create cfg).processFrame t none none) = true :=
  ⟨rfl, rfl⟩

theorem analyzeHand_isOk (cfg : TrackerConfig) (s0 t : Q) (hd : Handedness)
    (lm : Option (List Point)) (st : HandState) (ec mc : ℕ) (h : okLandmarks lm) :
    exceptOk (analyzeHand cfg s0 t hd lm st ec mc) = true := by
  match lm with
  | none => rfl
  | some l =>
    rcases h with h0 | h10
    · simp [analyzeHand, h0, exceptOk]
    · have h1 : ¬ l.length = 0 := by omega
      have h2 : ¬ l.length < 10 := by omega
      simp [analyzeHand, h1, h2, exceptOk]

theorem exceptOk_exists_ok {ε α : Type _} (e : Except ε α) (h : exceptOk e = true) :
    ∃ v, e = .ok v := by
  cases e with
  | ok v => exact ⟨v, rfl⟩
  | error _ => simp [exceptOk] at h

/-- Claim C9, amended: absent hands, empty landmark lists, and landmark lists
with at least 10 points (every real MediaPipe hand has 21) are processed
through a defined branch with no error: the per-frame arithmetic
(representative-point midpoint, Euclidean distance, window average) is total
there.  Only a non-empty list with fewer than 10 points aborts (see the
counterexample). -/
theorem wellformedInput_total (a : MotionAnalyzer) (t : Q)
    (lml lmr : Option (List Point)) (hl : okLandmarks lml) (hr : okLandmarks lmr) :
    exceptOk (a.processFrame t lml lmr) = true := by
  obtain ⟨l, hlEq⟩ := exceptOk_exists_ok _
    (analyzeHand_isOk a.config a.sessionStartTime t .Left lml a.leftHand
      a.eventCounter a.moveOrderCounter hl)
  obtain ⟨r, hrEq⟩ := exceptOk_exists_ok _
    (analyzeHand_isOk a.config a.sessionStartTime t .Right lmr a.rightHand
      l.eventCounter l.moveOrderCounter hr)
  simp [MotionAnalyzer.processFrame, hlEq, hrEq, exceptOk, Bind.bind, Except.bind,
    Functor.map, Except.map, Pure.pure, Except.pure]

theorem processFrame_error_left (a : MotionAnalyzer) (t : Q)
    (ll rl : Option (List Point)) (e : Unit)
    (hL : analyzeHand a.config a.sessionStartTime t .Left ll a.leftHand
      a.eventCounter a.moveOrderCounter = .error e) :
    a.processFrame t ll rl = .error e := by
  simp [MotionAnalyzer.processFrame, hL, Bind.bind, Except.bind]

theorem processFrame_error_right (a : MotionAnalyzer) (t : Q)
    (ll rl : Option (List Point)) (l : HandStep) (e : Unit)
    (hL : analyzeHand a.config a.sessionStartTime t .Left ll a.leftHand
      a.eventCounter a.moveOrderCounter = .ok l)
    (hR : analyzeHand a.config a.sessionStartTime t .Right rl a.rightHand
      l.eventCounter l.moveOrderCounter = .error e) :
    a.processFrame t ll rl = .error e := by
  simp [MotionAnalyzer.processFrame, hL, hR, Bind.bind, Except.bind,
    Functor.map, Except.map]

theorem processFrame_ok_ok (a : MotionAnalyzer) (t : Q)
    (ll rl : Option (List Point)) (l rr : HandStep)
    (hL : analyzeHand a.config a.sessionStartTime t .Left ll a.leftHand
      a.eventCounter a.moveOrderCounter = .ok l)
    (hR : analyzeHand a.config a.sessionStartTime t .Right rl a.rightHand
      l.eventCounter l.moveOrderCounter = .ok rr) :
    a.processFrame t ll rl =
      .ok ⟨⟨a.config, l.state, rr.state, a.sessionStartTime, rr.eventCounter,
        rr.moveOrderCounter⟩, l.events ++ rr.events, l.metrics, rr.metrics⟩ := by
  simp [MotionAnalyzer.processFrame, hL, hR, Bind.bind, Except.bind,
    Functor.map, Except.map, Pure.pure, Except.pure]

/-- Exhaustive characterization of one hysteresis step: exactly one of six
branches applies, and in each the full result is given explicitly. -/
theorem hysteresisStep_cases (cfg : TrackerConfig) (s0 t : Q) (hd : Handedness)
    (v sm : Q) (st : HandState) (ec mc : ℕ) :
    (st.isMoving = false ∧ ¬ sm > cfg.threshold ∧
      hysteresisStep cfg s0 t hd v sm st ec mc =
        ({ st with framesAboveThreshold := 0 }, ec, mc, [])) ∨
    (st.isMoving = false ∧ sm > cfg.threshold ∧
      st.framesAboveThreshold + 1 < cfg.minDurationFrames ∧
      hysteresisStep cfg s0 t hd v sm st ec mc =
        ({ st with framesAboveThreshold := st.framesAboveThreshold + 1 }, ec, mc, [])) ∨
    (st.isMoving = false ∧ sm > cfg.threshold ∧
      cfg.minDurationFrames ≤ st.framesAboveThreshold + 1 ∧
      hysteresisStep cfg s0 t hd v sm st ec mc =
        ({ st with framesAboveThreshold := st.framesAboveThreshold + 1, isMoving := true, motionStartTime := some t, totalDistance := 0 },
         ec + 1, mc + 1,
         [{ id := "evt_" ++ toString ec, hand := hd, type := .START,
            timestamp := t - s0, orderIndex := some (mc + 1) }])) ∨
    (st.isMoving = true ∧ ¬ sm < cfg.threshold * Q.make 1 2 ∧
      hysteresisStep cfg s0 t hd v sm st ec mc =
        ({ st with totalDistance := st.totalDistance + v, framesBelowThreshold := 0 },
         ec, mc, [])) ∨
    (st.isMoving = true ∧ sm < cfg.threshold * Q.make 1 2 ∧
      st.framesBelowThreshold + 1 < cfg.minDurationFrames ∧
      hysteresisStep cfg s0 t hd v sm st ec mc =
        ({ st with totalDistance := st.totalDistance + v, framesBelowThreshold := st.framesBelowThreshold + 1 }, ec, mc, [])) ∨
    (st.isMoving = true ∧ sm < cfg.threshold * Q.make 1 2 ∧
      cfg.minDurationFrames ≤ st.framesBelowThreshold + 1 ∧
      hysteresisStep cfg s0 t hd v sm st ec mc =
        ({ st with totalDistance := st.totalDistance + v, framesBelowThreshold := st.framesBelowThreshold + 1, isMoving := false, motionStartTime := none },
         ec + 1, mc,
         [{ id := "evt_" ++ toString ec, hand := hd, type := .STOP,
            timestamp := t - s0,
            duration := some (t - (match st.motionStartTime with
              | none => t
              | some t0 => if t0 = 0 then t else t0)),
            distance := some (st.totalDistance + v) }])) := by
  unfold hysteresisStep
  rcases hmv : st.isMoving with _ | _ <;>
    simp only [hmv] <;>
    split_ifs with hc1 hc2 <;> simp_all

theorem analyzeHand_visible (cfg : TrackerConfig) (s0 t : Q) (hd : Handedness)
    (lms : List Point) (st : HandState) (ec mc : ℕ) (h10 : 10 ≤ lms.length) :
    analyzeHand cfg s0 t hd (some lms) st ec mc =
      (let r := hysteresisStep cfg s0 t hd (instVelocity st.lastPosition (visiblePoint lms))
         (visibleState st lms).velocityBuffer.average (visibleState st lms) ec mc
       .ok ⟨r.1, r.2.1, r.2.2.1, r.2.2.2,
         some ⟨hd, lms, (visibleState st lms).velocityBuffer.average, r.1.isMoving, 1⟩⟩) := by
  have h1 : ¬ lms.length = 0 := by omega
  have h2 : ¬ lms.length < 10 := by omega
  simp [analyzeHand, h1, h2, visibleState, visiblePoint]

/-- Shape of one analyzeHand call: it throws, or emits nothing and preserves
the moving flag and ordinal counter, or emits exactly one Start (flipping Idle
to Moving and incrementing the shared ordinal, which it carries), or emits
exactly one Stop (flipping Moving to Idle, ordinal counter unchanged). -/
theorem analyzeHand_step_shape (cfg : TrackerConfig) (s0 t : Q) (hd : Handedness)
    (lm : Option (List Point)) (st : HandState) (ec mc : ℕ) :
    (analyzeHand cfg s0 t hd lm st ec mc = .error ()) ∨
    (∃ r, analyzeHand cfg s0 t hd lm st ec mc = .ok r ∧
      r.state.isMoving = st.isMoving ∧ r.events = [] ∧ r.moveOrderCounter = mc) ∨
    (∃ r ev, analyzeHand cfg s0 t hd lm st ec mc = .ok r ∧
      r.events = [ev] ∧ ev.hand = hd ∧ ev.type = .START ∧ ev.orderIndex = some (mc + 1) ∧
      r.moveOrderCounter = mc + 1 ∧ st.isMoving = false ∧ r.state.isMoving = true) ∨
    (∃ r ev, analyzeHand cfg s0 t hd lm st ec mc = .ok r ∧
      r.events = [ev] ∧ ev.hand = hd ∧ ev.type = .STOP ∧ ev.orderIndex = none ∧
      r.moveOrderCounter = mc ∧ st.isMoving = true ∧ r.state.isMoving = false) := by
  match lm with
  | none =>
    exact Or.inr (Or.inl
      ⟨⟨{ st with velocityBuffer := st.velocityBuffer.add 0 }, ec, mc, [], none⟩,
        rfl, rfl, rfl, rfl⟩)
  | some lms =>
    by_cases h0 : lms.length = 0
    · refine Or.inr (Or.inl
        ⟨⟨{ st with velocityBuffer := st.velocityBuffer.add 0 }, ec, mc, [], none⟩,
          ?_, rfl, rfl, rfl⟩)
      simp [analyzeHand, h0]
    · by_cases hlt : lms.length < 10
      · left
        simp [analyzeHand, h0, hlt]
      · have hmv2 : (visibleState st lms).isMoving = st.isMoving := rfl
        rw [analyzeHand_visible cfg s0 t hd lms st ec mc (by omega)]
        simp only []
        rcases hysteresisStep_cases cfg s0 t hd
            (instVelocity st.lastPosition (visiblePoint lms))
            (visibleState st lms).velocityBuffer.average (visibleState st lms) ec mc with
          ⟨hm, hc, hEq⟩ | ⟨hm, hc, hcnt, hEq⟩ | ⟨hm, hc, hcnt, hEq⟩ |
          ⟨hm, hc, hEq⟩ | ⟨hm, hc, hcnt, hEq⟩ | ⟨hm, hc, hcnt, hEq⟩
        · exact Or.inr (Or.inl ⟨_, rfl, by simp [hEq, ← hmv2], by simp [hEq], by simp [hEq]⟩)
        · exact Or.inr (Or.inl ⟨_, rfl, by simp [hEq, ← hmv2], by simp [hEq], by simp [hEq]⟩)
        · exact Or.inr (Or.inr (Or.inl ⟨_,
            { id := "evt_" ++ toString ec, hand := hd, type := .START, timestamp := t - s0, orderIndex := some (mc + 1) },
            rfl, by simp [hEq], rfl, rfl, rfl, by simp [hEq],
            by rw [← hmv2]; exact hm, by simp [hEq]⟩))
        · exact Or.inr (Or.inl ⟨_, rfl, by simp [hEq, ← hmv2], by simp [hEq], by simp [hEq]⟩)
        · exact Or.inr (Or.inl ⟨_, rfl, by simp [hEq, ← hmv2], by simp [hEq], by simp [hEq]⟩)
        · exact Or.inr (Or.inr (Or.inr ⟨_,
            { id := "evt_" ++ toString ec, hand := hd, type := .STOP, timestamp := t - s0,
              duration := some (t - (match (visibleState st lms).motionStartTime with
                | none => t
                | some t0 => if t0 = 0 then t else t0)),
              distance := some ((visibleState st lms).totalDistance + instVelocity st.lastPosition (visiblePoint lms)) },
            rfl, by simp [hEq], rfl, rfl, rfl, by simp [hEq],
            by rw [← hmv2]; exact hm, by simp [hEq]⟩))

theorem altTypes_append (b : Bool) (l m : List EventType) :
    altTypes b (l ++ m) = (altTypes b l && altTypes (afterTypes b l) m) := by
  induction l generalizing b with
  | nil => simp [altTypes, afterTypes]
  | cons e es ih => simp [altTypes, afterTypes, ih, Bool.and_assoc]

theorem afterTypes_append (b : Bool) (l m : List EventType) :
    afterTypes b (l ++ m) = afterTypes (afterTypes b l) m := by
  induction l generalizing b with
  | nil => rfl
  | cons e es ih => simp [afterTypes, ih]

/-- Per-hand shape of one processFrame call: for each hand the filtered event
contribution is empty (moving flag preserved), a single Start (Idle flips to
Moving), or a single Stop (Moving flips to Idle). -/
theorem processFrame_hand_shape (a : MotionAnalyzer) (t : Q)
    (ll rl : Option (List Point)) (r : FrameResult) (hd : Handedness)
    (h : a.processFrame t ll rl = .ok r) :
    ((r.events.filter (fun ev => decide (ev.hand = hd))).map MotionEvent.type = [] ∧
      (r.analyzer.hand hd).isMoving = (a.hand hd).isMoving) ∨
    ((r.events.filter (fun ev => decide (ev.hand = hd))).map MotionEvent.type = [.START] ∧
      (a.hand hd).isMoving = false ∧ (r.analyzer.hand hd).isMoving = true) ∨
    ((r.events.filter (fun ev => decide (ev.hand = hd))).map MotionEvent.type = [.STOP] ∧
      (a.hand hd).isMoving = true ∧ (r.analyzer.hand hd).isMoving = false) := by
  cases hL : analyzeHand a.config a.sessionStartTime t .Left ll a.leftHand
      a.eventCounter a.moveOrderCounter with
  | error e =>
    rw [processFrame_error_left a t ll rl e hL] at h
    exact absurd h (by simp)
  | ok l =>
  cases hR : analyzeHand a.config a.sessionStartTime t .Right rl a.rightHand
      l.eventCounter l.moveOrderCounter with
  | error e =>
    rw [processFrame_error_right a t ll rl l e hL hR] at h
    exact absurd h (by simp)
  | ok rr =>
    rw [processFrame_ok_ok a t ll rl l rr hL hR] at h
    simp only [Except.ok.injEq] at h
    subst h
    rcases analyzeHand_step_shape a.config a.sessionStartTime t .Left ll a.leftHand
        a.eventCounter a.moveOrderCounter with
      hS | ⟨l', hS, hl1, hl2, hl3⟩ | ⟨l', evl, hS, hl1, hl2, hl3, hl4, hl5, hl6, hl7⟩ |
      ⟨l', evl, hS, hl1, hl2, hl3, hl4, hl5, hl6, hl7⟩ <;>
      rw [hL] at hS <;>
      [skip; rw [Except.ok.injEq] at hS; rw [Except.ok.injEq] at hS; rw [Except.ok.injEq] at hS] <;>
      [exact absurd hS (by simp); subst hS; subst hS; subst hS] <;>
    (rcases analyzeHand_step_shape a.config a.sessionStartTime t .Right rl a.rightHand
        l.eventCounter l.moveOrderCounter with
      hS2 | ⟨r', hS2, hr1, hr2, hr3⟩ | ⟨r', evr, hS2, hr1, hr2, hr3, hr4, hr5, hr6, hr7⟩ |
      ⟨r', evr, hS2, hr1, hr2, hr3, hr4, hr5, hr6, hr7⟩ <;>
      rw [hR] at hS2 <;>
      [skip; rw [Except.ok.injEq] at hS2; rw [Except.ok.injEq] at hS2; rw [Except.ok.injEq] at hS2] <;>
      [exact absurd hS2 (by simp); subst hS2; subst hS2; subst hS2] <;>
      cases hd <;>
      simp_all [MotionAnalyzer.hand, List.filter_append])

theorem runFrames_alternation_aux (fs : List Frame) (a : MotionAnalyzer) (hd : Handedness) :
    altTypes (!(a.hand hd).isMoving)
        (((runFrames a fs).events.filter (fun ev => decide (ev.hand = hd))).map MotionEvent.type) = true ∧
    afterTypes (!(a.hand hd).isMoving)
        (((runFrames a fs).events.filter (fun ev => decide (ev.hand = hd))).map MotionEvent.type)
      = !((runFrames a fs).analyzer.hand hd).isMoving := by
  induction fs generalizing a with
  | nil => simp [runFrames, altTypes, afterTypes]
  | cons f fs ih =>
    cases hpf : a.processFrame f.timestamp f.leftLandmarks f.rightLandmarks with
    | error e => simp [runFrames, hpf, altTypes, afterTypes]
    | ok r =>
      have H := processFrame_hand_shape a f.timestamp f.leftLandmarks f.rightLandmarks r hd hpf
      have IH1 := (ih r.analyzer).1
      have IH2 := (ih r.analyzer).2
      simp only [runFrames, hpf]
      rcases H with ⟨hev, hmv⟩ | ⟨hev, hmv0, hmv1⟩ | ⟨hev, hmv0, hmv1⟩
      · simp only [List.filter_append, List.map_append, hev, List.nil_append]
        rw [← hmv]
        exact ⟨IH1, IH2⟩
      · rw [hmv1] at IH1 IH2
        simp only [List.filter_append, List.map_append, hev, List.singleton_append]
        rw [hmv0]
        constructor
        · simp [altTypes, expectedType]
          simpa using IH1
        · simp [afterTypes]
          simpa using IH2
      · rw [hmv1] at IH1 IH2
        simp only [List.filter_append, List.map_append, hev, List.singleton_append]
        rw [hmv0]
        constructor
        · simp [altTypes, expectedType]
          simpa using IH1
        · simp [afterTypes]
          simpa using IH2

/-- Claim C2: for every frame sequence processed from a fresh session and each
hand separately, the subsequence of events emitted for that hand alternates
strictly: it begins with Start, no two consecutive Starts and no two
consecutive Stops occur, and it may end with an unterminated Start (altTypes
accepts every prefix of the alternating sequence Start, Stop, Start, ...). -/
theorem eventLog_alternates (cfg : TrackerConfig) (fs : List Frame) (hd : Handedness) :
    altTypes true
      (((runFrames (MotionAnalyzer.create cfg) fs).events.filter
          (fun ev => decide (ev.hand = hd))).map MotionEvent.type) = true := by
  have H := (runFrames_alternation_aux fs (MotionAnalyzer.create cfg) hd).1
  cases hd <;>
    simpa [MotionAnalyzer.create, MotionAnalyzer.hand, createHandState] using H

theorem consecutiveFrom_add (s m n : ℕ) :
    consecutiveFrom s (m + n) = consecutiveFrom s m ++ consecutiveFrom (s + m) n := by
  induction m generalizing s with
  | zero => simp [consecutiveFrom]
  | succ m ih =>
    have h1 : m + 1 + n = (m + n) + 1 := by omega
    have h2 : s + 1 + m = s + (m + 1) := by omega
    rw [h1]
    show s :: consecutiveFrom (s + 1) (m + n) = (s :: consecutiveFrom (s + 1) m) ++ _
    rw [List.cons_append, ih (s + 1), h2]

/-- One processFrame call appends k (0, 1 or 2) Start events whose ordinals
continue the shared counter consecutively. -/
theorem processFrame_ords (a : MotionAnalyzer) (t : Q)
    (ll rl : Option (List Point)) (r : FrameResult)
    (h : a.processFrame t ll rl = .ok r) :
    ∃ k, r.analyzer.moveOrderCounter = a.moveOrderCounter + k ∧
      (r.events.filter (fun ev => decide (ev.type = EventType.START))).map
          (fun ev => ev.orderIndex)
        = (consecutiveFrom (a.moveOrderCounter + 1) k).map some := by
  cases hL : analyzeHand a.config a.sessionStartTime t .Left ll a.leftHand
      a.eventCounter a.moveOrderCounter with
  | error e =>
    rw [processFrame_error_left a t ll rl e hL] at h
    exact absurd h (by simp)
  | ok l =>
  cases hR : analyzeHand a.config a.sessionStartTime t .Right rl a.rightHand
      l.eventCounter l.moveOrderCounter with
  | error e =>
    rw [processFrame_error_right a t ll rl l e hL hR] at h
    exact absurd h (by simp)
  | ok rr =>
    rw [processFrame_ok_ok a t ll rl l rr hL hR] at h
    simp only [Except.ok.injEq] at h
    subst h
    rcases analyzeHand_step_shape a.config a.sessionStartTime t .Left ll a.leftHand
        a.eventCounter a.moveOrderCounter with
      hSl | ⟨l1, hSl, hlA, hlB, hlC⟩ | ⟨l1, evl, hSl, hlB, hlH, hlT, hlO, hlC, hlP, hlQ⟩ |
      ⟨l1, evl, hSl, hlB, hlH, hlT, hlO, hlC, hlP, hlQ⟩ <;>
      rw [hL] at hSl <;>
      [skip; rw [Except.ok.injEq] at hSl; rw [Except.ok.injEq] at hSl;
        rw [Except.ok.injEq] at hSl] <;>
      [exact absurd hSl (by simp); subst hSl; subst hSl; subst hSl] <;>
      (rcases analyzeHand_step_shape a.config a.sessionStartTime t .Right rl a.rightHand
        l.eventCounter l.moveOrderCounter with
      hSr | ⟨r1, hSr, hrA, hrB, hrC⟩ | ⟨r1, evr, hSr, hrB, hrH, hrT, hrO, hrC, hrP, hrQ⟩ |
      ⟨r1, evr, hSr, hrB, hrH, hrT, hrO, hrC, hrP, hrQ⟩ <;>
      rw [hR] at hSr <;>
      [skip; rw [Except.ok.injEq] at hSr; rw [Except.ok.injEq] at hSr;
        rw [Except.ok.injEq] at hSr] <;>
      [exact absurd hSr (by simp); subst hSr; subst hSr; subst hSr])
    · exact ⟨0, by simp [hrC, hlC], by simp [hlB, hrB, consecutiveFrom]⟩
    · refine ⟨1, by simp [hrC, hlC], ?_⟩
      simp [hlB, hrB, hrT, hrO, hlC, consecutiveFrom]
    · exact ⟨0, by simp [hrC, hlC], by simp [hlB, hrB, hrT, hrO, consecutiveFrom]⟩
    · refine ⟨1, by simp [hrC, hlC], ?_⟩
      simp [hlB, hrB, hlT, hlO, consecutiveFrom]
    · refine ⟨2, by simp only [hrC, hlC], ?_⟩
      simp [hlB, hrB, hlT, hlO, hrT, hrO, hlC, consecutiveFrom]
    · refine ⟨1, by simp [hrC, hlC], ?_⟩
      simp [hlB, hrB, hlT, hlO, hrT, hrO, consecutiveFrom]
    · exact ⟨0, by simp [hrC, hlC], by simp [hlB, hrB, hlT, hlO, consecutiveFrom]⟩
    · refine ⟨1, by simp [hrC, hlC], ?_⟩
      simp [hlB, hrB, hlT, hlO, hrT, hrO, hlC, consecutiveFrom]
    · exact ⟨0, by simp [hrC, hlC],
        by simp [hlB, hrB, hlT, hlO, hrT, hrO, consecutiveFrom]⟩

theorem runFrames_ords_aux (fs : List Frame) (a : MotionAnalyzer) :
    ∃ k, (runFrames a fs).analyzer.moveOrderCounter = a.moveOrderCounter + k ∧
      ((runFrames a fs).events.filter (fun ev => decide (ev.type = EventType.START))).map
          (fun ev => ev.orderIndex)
        = (consecutiveFrom (a.moveOrderCounter + 1) k).map some := by
  induction fs generalizing a with
  | nil => exact ⟨0, rfl, rfl⟩
  | cons f fs ih =>
    cases hpf : a.processFrame f.timestamp f.leftLandmarks f.rightLandmarks with
    | error e => exact ⟨0, by simp [runFrames, hpf], by simp [runFrames, hpf, consecutiveFrom]⟩
    | ok r =>
      obtain ⟨k1, hk1, hord1⟩ := processFrame_ords a f.timestamp f.leftLandmarks
        f.rightLandmarks r hpf
      obtain ⟨k2, hk2, hord2⟩ := ih r.analyzer
      refine ⟨k1 + k2, ?_, ?_⟩
      · simp only [runFrames, hpf]
        omega
      · simp only [runFrames, hpf, List.filter_append, List.map_append, hord1,
          consecutiveFrom_add, List.map_append]
        rw [hord2, hk1]
        have : a.moveOrderCounter + k1 + 1 = a.moveOrderCounter + 1 + k1 := by omega
        rw [this]

/-- Claim C3: across both hands combined, the Start events of a session (from
construction, and equally from a resetSession) carry consecutive orderIndex
values 1, 2, 3, ...: each Start's ordinal is strictly greater than every
previously emitted Start's ordinal, and the first Start of the session carries
orderIndex 1 (consecutiveFrom 1 k is the list [1, ..., k]). -/
theorem startOrdinals_consecutive_from_one (cfg : TrackerConfig) (now : Q)
    (fs : List Frame) :
    (((runFrames (MotionAnalyzer.create cfg) fs).events.filter
        (fun ev => decide (ev.type = EventType.START))).map (fun ev => ev.orderIndex)
      = (consecutiveFrom 1
          (runFrames (MotionAnalyzer.create cfg) fs).analyzer.moveOrderCounter).map some) ∧
    (((runFrames ((MotionAnalyzer.create cfg).resetSession now) fs).events.filter
        (fun ev => decide (ev.type = EventType.START))).map (fun ev => ev.orderIndex)
      = (consecutiveFrom 1
          (runFrames ((MotionAnalyzer.create cfg).resetSession now) fs).analyzer.moveOrderCounter).map some) := by
  constructor
  · obtain ⟨k, hk, hord⟩ := runFrames_ords_aux fs (MotionAnalyzer.create cfg)
    have h0 : (MotionAnalyzer.create cfg).moveOrderCounter = 0 := rfl
    rw [hord, hk, h0]
    simp
  · obtain ⟨k, hk, hord⟩ := runFrames_ords_aux fs ((MotionAnalyzer.create cfg).resetSession now)
    have h0 : ((MotionAnalyzer.create cfg).resetSession now).moveOrderCounter = 0 := rfl
    rw [hord, hk, h0]
    simp

theorem analyzeHand_absent (cfg : TrackerConfig) (s0 t : Q) (hd : Handedness)
    (st : HandState) (ec mc : ℕ) :
    analyzeHand cfg s0 t hd none st ec mc =
      .ok ⟨{ st with velocityBuffer := st.velocityBuffer.add 0 }, ec, mc, [], none⟩ := rfl

theorem analyzeHand_emptyList (cfg : TrackerConfig) (s0 t : Q) (hd : Handedness)
    (st : HandState) (ec mc : ℕ) :
    analyzeHand cfg s0 t hd (some []) st ec mc =
      .ok ⟨{ st with velocityBuffer := st.velocityBuffer.add 0 }, ec, mc, [], none⟩ := rfl

theorem runHand_cons {cfg : TrackerConfig} {s0 : Q} {hd : Handedness}
    {st : HandState} {ec mc : ℕ} {t : Q} {lm : Option (List Point)}
    {fs : List (Q × Option (List Point))} {r : HandStep}
    (hA : analyzeHand cfg s0 t hd lm st ec mc = .ok r) :
    runHand cfg s0 hd st ec mc ((t, lm) :: fs) =
      (let rest := runHand cfg s0 hd r.state r.eventCounter r.moveOrderCounter fs
       ⟨rest.state, rest.eventCounter, rest.moveOrderCounter,
         r.events ++ rest.events, r.metrics :: rest.metricsLog⟩) := by
  simp only [runHand, hA]

theorem runHand_cons_error {cfg : TrackerConfig} {s0 : Q} {hd : Handedness}
    {st : HandState} {ec mc : ℕ} {t : Q} {lm : Option (List Point)}
    {fs : List (Q × Option (List Point))} {e : Unit}
    (hA : analyzeHand cfg s0 t hd lm st ec mc = .error e) :
    runHand cfg s0 hd st ec mc ((t, lm) :: fs) = ⟨st, ec, mc, [], []⟩ := by
  simp only [runHand, hA]

theorem movingRunSpeeds_cons {cfg : TrackerConfig} {s0 : Q} {hd : Handedness}
    {st : HandState} {ec mc : ℕ} {cur : List Q} {t : Q} {lm : Option (List Point)}
    {fs : List (Q × Option (List Point))} {r : HandStep}
    (hA : analyzeHand cfg s0 t hd lm st ec mc = .ok r) :
    movingRunSpeeds cfg s0 hd st ec mc cur ((t, lm) :: fs) =
      (if r.events.any (fun ev => decide (ev.type = EventType.STOP)) then
         (cur ++ runContrib st lm) :: movingRunSpeeds cfg s0 hd r.state r.eventCounter
           r.moveOrderCounter [] fs
       else
         movingRunSpeeds cfg s0 hd r.state r.eventCounter r.moveOrderCounter
           (cur ++ runContrib st lm) fs) := by
  simp only [movingRunSpeeds, hA]

theorem movingRunSpeeds_cons_error {cfg : TrackerConfig} {s0 : Q} {hd : Handedness}
    {st : HandState} {ec mc : ℕ} {cur : List Q} {t : Q} {lm : Option (List Point)}
    {fs : List (Q × Option (List Point))} {e : Unit}
    (hA : analyzeHand cfg s0 t hd lm st ec mc = .error e) :
    movingRunSpeeds cfg s0 hd st ec mc cur ((t, lm) :: fs) = [] := by
  simp only [movingRunSpeeds, hA]

theorem runHand_distances_aux (cfg : TrackerConfig) (s0 : Q) (hd : Handedness)
    (fs : List (Q × Option (List Point))) :
    ∀ (st : HandState) (ec mc : ℕ) (cur : List Q),
      (st.isMoving = true → st.totalDistance = cur.foldl (fun a b => a + b) 0) →
      (st.isMoving = false → cur = []) →
      ((runHand cfg s0 hd st ec mc fs).events.filter
          (fun ev => decide (ev.type = EventType.STOP))).map (fun ev => ev.distance)
        = (movingRunSpeeds cfg s0 hd st ec mc cur fs).map
            (fun run => some (run.foldl (fun a b => a + b) 0)) := by
  induction fs with
  | nil => intro st ec mc cur h1 h2; rfl
  | cons f fs ih =>
    obtain ⟨t, lm⟩ := f
    intro st ec mc cur h1 h2
    match lm with
    | none =>
      rw [runHand_cons (analyzeHand_absent cfg s0 t hd st ec mc),
        movingRunSpeeds_cons (analyzeHand_absent cfg s0 t hd st ec mc)]
      simp only [List.any_nil, Bool.false_eq_true, if_false, runContrib,
        List.append_nil, List.nil_append, List.filter_append, List.filter_nil]
      exact ih _ ec mc cur h1 h2
    | some lms =>
      by_cases h0 : lms.length = 0
      · have hnil : lms = [] := List.length_eq_zero.mp h0
        subst hnil
        rw [runHand_cons (analyzeHand_emptyList cfg s0 t hd st ec mc),
          movingRunSpeeds_cons (analyzeHand_emptyList cfg s0 t hd st ec mc)]
        simp only [List.any_nil, Bool.false_eq_true, if_false, runContrib,
          List.append_nil, List.nil_append, List.filter_append, List.filter_nil,
          List.length_nil, ite_true]
        exact ih _ ec mc cur h1 h2
      · by_cases hlt : lms.length < 10
        · have herr : analyzeHand cfg s0 t hd (some lms) st ec mc = .error () := by
            simp [analyzeHand, h0, hlt]
          rw [runHand_cons_error herr, movingRunSpeeds_cons_error herr]
          rfl
        · have h10 : 10 ≤ lms.length := by omega
          have hvis := analyzeHand_visible cfg s0 t hd lms st ec mc h10
          simp only [] at hvis
          rcases hysteresisStep_cases cfg s0 t hd
              (instVelocity st.lastPosition (visiblePoint lms))
              (visibleState st lms).velocityBuffer.average (visibleState st lms) ec mc with
            ⟨hm, hc, hEq⟩ | ⟨hm, hc, hcnt, hEq⟩ | ⟨hm, hc, hcnt, hEq⟩ |
            ⟨hm, hc, hEq⟩ | ⟨hm, hc, hcnt, hEq⟩ | ⟨hm, hc, hcnt, hEq⟩ <;>
            rw [hEq] at hvis <;>
            rw [runHand_cons hvis, movingRunSpeeds_cons hvis]
          · -- Idle, not above threshold: no event
            have hstm : st.isMoving = false := hm
            simp [runContrib, h0, hstm]
            exact ih _ _ _ cur h1 (fun _ => h2 hstm)
          · -- Idle, above threshold, debounce not yet reached
            have hstm : st.isMoving = false := hm
            simp [runContrib, h0, hstm]
            exact ih _ _ _ cur h1 (fun _ => h2 hstm)
          · -- Start fires: event has type START; the distance run restarts empty
            have hstm : st.isMoving = false := hm
            have hcur : cur = [] := h2 hstm
            subst hcur
            simp [runContrib, h0, hstm]
            exact ih _ _ _ [] (fun _ => rfl) (fun hcon => absurd hcon (by simp [visibleState]))
          · -- Moving, not below the stop threshold: accumulate the raw speed
            have hstm : st.isMoving = true := hm
            simp [runContrib, h0, hstm]
            refine ih _ _ _ (cur ++ [instVelocity st.lastPosition (visiblePoint lms)]) ?_ ?_
            · intro _
              show st.totalDistance + instVelocity st.lastPosition (visiblePoint lms) =
                List.foldl (fun a b => a + b) 0
                  (cur ++ [instVelocity st.lastPosition (visiblePoint lms)])
              rw [h1 hstm, List.foldl_append]
              rfl
            · intro hcon
              exact absurd hcon (by simp [visibleState, hstm])
          · -- Moving, below the stop threshold, debounce not yet reached
            have hstm : st.isMoving = true := hm
            simp [runContrib, h0, hstm]
            refine ih _ _ _ (cur ++ [instVelocity st.lastPosition (visiblePoint lms)]) ?_ ?_
            · intro _
              show st.totalDistance + instVelocity st.lastPosition (visiblePoint lms) =
                List.foldl (fun a b => a + b) 0
                  (cur ++ [instVelocity st.lastPosition (visiblePoint lms)])
              rw [h1 hstm, List.foldl_append]
              rfl
            · intro hcon
              exact absurd hcon (by simp [visibleState, hstm])
          · -- Stop fires: the event's distance equals the collected run's sum
            have hstm : st.isMoving = true := hm
            simp [runContrib, h0, hstm]
            constructor
            · show st.totalDistance + instVelocity st.lastPosition (visiblePoint lms) =
                List.foldl (fun a b => a + b) 0 cur +
                  instVelocity st.lastPosition (visiblePoint lms)
              rw [h1 hstm]
            · exact ih _ _ _ [] (fun hcon => absurd hcon (by simp [visibleState])) (fun _ => rfl)

/-- Claim C5: for every run from a fresh hand state, the distance field of
each Stop event equals the sum of the raw (unsmoothed) instantaneous speeds of
the visible frames processed while the hand was Moving — excluding the frame
on which the Start transition fired (the hand was still Idle when that frame
was evaluated) and including the frame that fired the Stop; absent frames
contribute nothing. -/
theorem stopDistance_sums_raw_speeds (cfg : TrackerConfig) (s0 : Q)
    (hd : Handedness) (ec mc : ℕ) (fs : List (Q × Option (List Point))) :
    ((runHand cfg s0 hd (createHandState cfg) ec mc fs).events.filter
        (fun ev => decide (ev.type = EventType.STOP))).map (fun ev => ev.distance)
      = (movingRunSpeeds cfg s0 hd (createHandState cfg) ec mc [] fs).map
          (fun run => some (run.foldl (fun a b => a + b) 0)) :=
  runHand_distances_aux cfg s0 hd fs (createHandState cfg) ec mc []
    (fun hcon => absurd hcon (by simp [createHandState])) (fun _ => rfl)

theorem Q.make_zero (d : ℕ) : Q.make 0 d = (0 : Q) := by
  unfold Q.make
  rcases Nat.eq_zero_or_pos d with hd | hd
  · subst hd; rfl
  · have hg : Int.natAbs 0 = 0 := rfl
    simp [hg, Nat.gcd_zero_left]
    rw [if_neg (by omega : ¬ d = 0), Nat.div_self hd]
    rfl

theorem Q.sub_self (a : Q) : a - a = (0 : Q) := by
  show a.sub a = 0
  unfold Q.sub Q.add Q.neg
  have hnum : a.num * ((⟨-a.num, a.den⟩ : Q).den : Int)
      + (⟨-a.num, a.den⟩ : Q).num * (a.den : Int) = 0 := by
    simp
  rw [hnum]
  exact Q.make_zero _

theorem instVelocity_self (p : Point) : instVelocity (some p) p = 0 := by
  show ratSqrt ((p.x - p.x) * (p.x - p.x) + (p.y - p.y) * (p.y - p.y)) * 100 = 0
  rw [Q.sub_self, Q.sub_self]
  decide

theorem Q.make_num_pos (n : Int) (d : ℕ) (hn : 0 < n) : 0 < (Q.make n d).num := by
  unfold Q.make
  have ha : 0 < n.natAbs := by omega
  have hg : 0 < n.natAbs.gcd d := Nat.gcd_pos_of_pos_left d ha
  rw [if_neg (by omega)]
  rw [if_pos (by omega)]
  have hdvd : n.natAbs.gcd d ∣ n.natAbs := Nat.gcd_dvd_left _ _
  have hpos : 0 < n.natAbs / n.natAbs.gcd d :=
    Nat.div_pos (Nat.le_of_dvd ha hdvd) hg
  show (0 : Int) < ((n.natAbs / n.natAbs.gcd d : ℕ) : Int)
  exact_mod_cast hpos

theorem Q.zero_lt_iff (q : Q) : ((0 : Q) < q) ↔ 0 < q.num := by
  show (0 : Int) * (q.den : Int) < q.num * ((1 : ℕ) : Int) ↔ 0 < q.num
  simp

theorem stopThreshold_pos (th : Q) (h : (0 : Q) < th) :
    (0 : Q) < th * Q.make 1 2 := by
  rw [Q.zero_lt_iff] at h ⊢
  show 0 < (th.mul (Q.make 1 2)).num
  have h12 : Q.make 1 2 = ⟨1, 2⟩ := by decide
  rw [h12]
  unfold Q.mul
  exact Q.make_num_pos _ _ (by simpa using h)

theorem not_zero_gt_of_pos (th : Q) (h : (0 : Q) < th) : ¬ ((0 : Q) > th) := by
  intro hcon
  rw [Q.zero_lt_iff] at h
  have : th.num < 0 := by
    have := hcon
    show th.num < 0
    have h2 : th.num * ((1 : ℕ) : Int) < 0 * (th.den : Int) := this
    simpa using h2
  omega

theorem foldl_add_zeros (k : ℕ) :
    List.foldl (fun a b => a + b) (0 : Q) (List.replicate k 0) = 0 := by
  induction k with
  | zero => rfl
  | succ k ih =>
    rw [List.replicate_succ, List.foldl_cons]
    have h00 : (0 : Q) + 0 = 0 := by decide
    rw [h00, ih]

theorem avg_replicate_zero (k s : ℕ) :
    VelocityBuffer.average ⟨List.replicate k 0, s⟩ = 0 := by
  cases k with
  | zero => rfl
  | succ k =>
    unfold VelocityBuffer.average
    rw [if_neg (by simp)]
    rw [show (⟨List.replicate (k + 1) 0, s⟩ : VelocityBuffer).buffer = List.replicate (k + 1) 0 from rfl]
    rw [foldl_add_zeros, List.length_replicate]
    show Q.div 0 (Q.ofNat (k + 1)) = 0
    unfold Q.div Q.ofNat
    rw [if_neg (by simp; omega), if_pos (by simp)]
    rw [show ((0 : Q).num = (0 : Int)) from rfl, Int.zero_mul]
    exact Q.make_zero _

theorem vbuf_add_zero_step (old : List Q) (c cap : ℕ) :
    VelocityBuffer.add ⟨(old ++ List.replicate c 0).drop (old.length + c - cap), cap⟩ 0
      = ⟨(old ++ List.replicate (c + 1) 0).drop (old.length + (c + 1) - cap), cap⟩ := by
  have hM : (old ++ List.replicate c 0) ++ [(0 : Q)] = old ++ List.replicate (c + 1) 0 := by
    rw [List.append_assoc, ← List.replicate_succ']
  have hd : old.length + c - cap ≤ (old ++ List.replicate c 0).length := by
    simp only [List.length_append, List.length_replicate]
    omega
  have hb : ((old ++ List.replicate c 0).drop (old.length + c - cap)) ++ [(0 : Q)]
      = (old ++ List.replicate (c + 1) 0).drop (old.length + c - cap) := by
    rw [← List.drop_append_of_le_length hd, hM]
  have hlenM : (old ++ List.replicate (c + 1) 0).length = old.length + c + 1 := by
    simp only [List.length_append, List.length_replicate]
    omega
  unfold VelocityBuffer.add
  simp only [hb]
  by_cases hcap : cap ≤ old.length + c
  · rw [if_pos ?pos]
    case pos =>
      simp only [List.length_drop, hlenM]
      omega
    rw [List.tail_drop]
    have : old.length + c - cap + 1 = old.length + (c + 1) - cap := by omega
    rw [this]
  · rw [if_neg ?neg]
    case neg =>
      simp only [List.length_drop, hlenM]
      omega
    have h0 : old.length + c - cap = 0 := by omega
    have h1 : old.length + (c + 1) - cap = 0 := by omega
    rw [h0, h1]

theorem drop_all_zero (old : List Q) (c cap : ℕ) (hc : cap ≤ c) :
    (old ++ List.replicate c 0).drop (old.length + c - cap)
      = List.replicate cap (0 : Q) := by
  have h1 : old.length + c - cap = old.length + (c - cap) := by omega
  rw [h1, List.drop_append, List.drop_replicate]
  congr 1
  omega

theorem stillLandmarks_length (p : Point) : (stillLandmarks p).length = 10 := rfl

theorem stillFeed_length (p : Point) (n : ℕ) :
    ∀ ts : ℕ → Q, (stillFeed p ts n).length = n := by
  induction n with
  | zero => intro ts; rfl
  | succ n ih => intro ts; simp [stillFeed, ih]

theorem analyzeHand_still (cfg : TrackerConfig) (s0 t : Q) (hd : Handedness)
    (p : Point) (st : HandState) (ec mc : ℕ)
    (hp : representativePoint p p = p) (hlp : st.lastPosition = some p) :
    analyzeHand cfg s0 t hd (some (stillLandmarks p)) st ec mc =
      (let st2 : HandState := { st with lastPosition := some p, velocityBuffer := st.velocityBuffer.add 0 }
       let r := hysteresisStep cfg s0 t hd 0 st2.velocityBuffer.average st2 ec mc
       .ok ⟨r.1, r.2.1, r.2.2.1, r.2.2.2,
         some ⟨hd, stillLandmarks p, st2.velocityBuffer.average, r.1.isMoving, 1⟩⟩) := by
  have h10 : 10 ≤ (stillLandmarks p).length := by rw [stillLandmarks_length]
  rw [analyzeHand_visible cfg s0 t hd (stillLandmarks p) st ec mc h10]
  have hvp : visiblePoint (stillLandmarks p) = p := by
    rw [show visiblePoint (stillLandmarks p) = representativePoint p p from rfl, hp]
  simp only [visibleState, hvp, hlp, instVelocity_self]

theorem analyzeHand_still2 (cfg : TrackerConfig) (s0 t : Q) (hd : Handedness)
    (p : Point) (st : HandState) (ec mc : ℕ)
    (hp : representativePoint p p = p) (hlp : st.lastPosition = some p) :
    analyzeHand cfg s0 t hd (some (stillLandmarks p)) st ec mc =
      .ok ⟨(hysteresisStep cfg s0 t hd 0 (VelocityBuffer.average (st.velocityBuffer.add 0))
            { st with lastPosition := some p, velocityBuffer := st.velocityBuffer.add 0 } ec mc).1,
        (hysteresisStep cfg s0 t hd 0 (VelocityBuffer.average (st.velocityBuffer.add 0))
            { st with lastPosition := some p, velocityBuffer := st.velocityBuffer.add 0 } ec mc).2.1,
        (hysteresisStep cfg s0 t hd 0 (VelocityBuffer.average (st.velocityBuffer.add 0))
            { st with lastPosition := some p, velocityBuffer := st.velocityBuffer.add 0 } ec mc).2.2.1,
        (hysteresisStep cfg s0 t hd 0 (VelocityBuffer.average (st.velocityBuffer.add 0))
            { st with lastPosition := some p, velocityBuffer := st.velocityBuffer.add 0 } ec mc).2.2.2,
        some ⟨hd, stillLandmarks p, VelocityBuffer.average (st.velocityBuffer.add 0),
          (hysteresisStep cfg s0 t hd 0 (VelocityBuffer.average (st.velocityBuffer.add 0))
            { st with lastPosition := some p, velocityBuffer := st.velocityBuffer.add 0 } ec mc).1.isMoving, 1⟩⟩ := by
  rw [analyzeHand_still cfg s0 t hd p st ec mc hp hlp]

theorem stillFeed_stops_aux (cfg : TrackerConfig) (s0 : Q) (hd : Handedness)
    (p : Point) (hp : representativePoint p p = p)
    (hth : (0 : Q) < cfg.threshold) (hmin : 1 ≤ cfg.minDurationFrames) :
    ∀ (n : ℕ) (ts : ℕ → Q) (st : HandState) (ec mc : ℕ) (old : List Q) (c : ℕ),
      st.isMoving = true →
      st.lastPosition = some p →
      st.velocityBuffer
        = ⟨(old ++ List.replicate c 0).drop (old.length + c - cfg.smoothingFrames),
            cfg.smoothingFrames⟩ →
      (if c < cfg.smoothingFrames
        then cfg.smoothingFrames - c + cfg.minDurationFrames ≤ n
        else cfg.minDurationFrames ≤ n + st.framesBelowThreshold ∧ 1 ≤ n) →
      ∃ ev ∈ (runHand cfg s0 hd st ec mc (stillFeed p ts n)).events,
        ev.type = EventType.STOP := by
  intro n
  induction n with
  | zero =>
    intro ts st ec mc old c hmov hlp hbuf hcond
    exfalso
    split at hcond <;> omega
  | succ n ih =>
    intro ts st ec mc old c hmov hlp hbuf hcond
    have hstep := analyzeHand_still2 cfg s0 (ts 0) hd p st ec mc hp hlp
    have hbuf' : st.velocityBuffer.add 0
        = ⟨(old ++ List.replicate (c + 1) 0).drop
            (old.length + (c + 1) - cfg.smoothingFrames), cfg.smoothingFrames⟩ := by
      rw [hbuf, vbuf_add_zero_step]
    rw [show stillFeed p ts (n + 1)
        = (ts 0, some (stillLandmarks p)) :: stillFeed p (fun i => ts (i + 1)) n from rfl]
    rcases hysteresisStep_cases cfg s0 (ts 0) hd 0
        (VelocityBuffer.average (st.velocityBuffer.add 0))
        { st with lastPosition := some p, velocityBuffer := st.velocityBuffer.add 0 } ec mc with
      ⟨hm, hc, hEq⟩ | ⟨hm, hc, hcnt, hEq⟩ | ⟨hm, hc, hcnt, hEq⟩ |
      ⟨hm, hc, hEq⟩ | ⟨hm, hc, hcnt, hEq⟩ | ⟨hm, hc, hcnt, hEq⟩
    · exact absurd hm (by simp [hmov])
    · exact absurd hm (by simp [hmov])
    · exact absurd hm (by simp [hmov])
    · -- Moving, smoothed not below the stop threshold: the counter resets
      by_cases hcc : c < cfg.smoothingFrames
      · rw [hEq] at hstep
        rw [runHand_cons hstep]
        refine ih (fun i => ts (i + 1)) _ _ _ old (c + 1) hmov rfl hbuf' ?_
        by_cases hcc1 : c + 1 < cfg.smoothingFrames
        · rw [if_pos hcc1]
          rw [if_pos hcc] at hcond
          omega
        · rw [if_neg hcc1]
          rw [if_pos hcc] at hcond
          refine ⟨?_, ?_⟩ <;>
            · show _ ≤ _
              omega
      · have hz : st.velocityBuffer.add 0
            = ⟨List.replicate cfg.smoothingFrames 0, cfg.smoothingFrames⟩ := by
          rw [hbuf', drop_all_zero _ _ _ (by omega)]
        have havg : VelocityBuffer.average (st.velocityBuffer.add 0) = 0 := by
          rw [hz]
          exact avg_replicate_zero _ _
        rw [havg] at hc
        exact absurd (stopThreshold_pos cfg.threshold hth) hc
    · -- Moving, below the stop threshold, debounce not reached: counter grows
      rw [hEq] at hstep
      rw [runHand_cons hstep]
      refine ih (fun i => ts (i + 1)) _ _ _ old (c + 1) hmov rfl hbuf' ?_
      have hcnt' : st.framesBelowThreshold + 1 < cfg.minDurationFrames := hcnt
      by_cases hcc1 : c + 1 < cfg.smoothingFrames
      · rw [if_pos hcc1]
        rw [if_pos (by omega)] at hcond
        omega
      · rw [if_neg hcc1]
        by_cases hcc : c < cfg.smoothingFrames
        · rw [if_pos hcc] at hcond
          refine ⟨?_, ?_⟩ <;>
            · show _ ≤ _
              omega
        · rw [if_neg hcc] at hcond
          obtain ⟨hc1, hc2⟩ := hcond
          refine ⟨?_, ?_⟩
          · simp only []
            omega
          · omega
    · -- Moving, below the stop threshold, debounce reached: Stop fires now
      rw [hEq] at hstep
      rw [runHand_cons hstep]
      simp

theorem analyzeHand_below_step (cfg : TrackerConfig) (s0 t : Q) (hd : Handedness)
    (lm : Option (List Point)) (st : HandState) (ec mc : ℕ) :
    (analyzeHand cfg s0 t hd lm st ec mc = .error ()) ∨
    (∃ r, analyzeHand cfg s0 t hd lm st ec mc = .ok r ∧
      r.state.framesBelowThreshold ≤ st.framesBelowThreshold + 1 ∧
      ((∃ ev ∈ r.events, ev.type = EventType.STOP) →
        cfg.minDurationFrames ≤ st.framesBelowThreshold + 1)) := by
  match lm with
  | none =>
    refine Or.inr ⟨⟨{ st with velocityBuffer := st.velocityBuffer.add 0 }, ec, mc, [], none⟩,
      rfl, Nat.le_succ _, ?_⟩
    rintro ⟨ev, hev, -⟩
    simp at hev
  | some lms =>
    by_cases h0 : lms.length = 0
    · refine Or.inr ⟨⟨{ st with velocityBuffer := st.velocityBuffer.add 0 }, ec, mc, [], none⟩,
        ?_, Nat.le_succ _, ?_⟩
      · simp [analyzeHand, h0]
      · rintro ⟨ev, hev, -⟩
        simp at hev
    · by_cases hlt : lms.length < 10
      · left
        simp [analyzeHand, h0, hlt]
      · rw [analyzeHand_visible cfg s0 t hd lms st ec mc (by omega)]
        simp only []
        rcases hysteresisStep_cases cfg s0 t hd
            (instVelocity st.lastPosition (visiblePoint lms))
            (visibleState st lms).velocityBuffer.average (visibleState st lms) ec mc with
          ⟨hm, hc, hEq⟩ | ⟨hm, hc, hcnt, hEq⟩ | ⟨hm, hc, hcnt, hEq⟩ |
          ⟨hm, hc, hEq⟩ | ⟨hm, hc, hcnt, hEq⟩ | ⟨hm, hc, hcnt, hEq⟩
        · refine Or.inr ⟨_, rfl, ?_, ?_⟩
          · rw [hEq]
            simp only [visibleState]
            omega
          · rintro ⟨ev, hev, -⟩
            simp [hEq] at hev
        · refine Or.inr ⟨_, rfl, ?_, ?_⟩
          · rw [hEq]
            simp only [visibleState]
            omega
          · rintro ⟨ev, hev, -⟩
            simp [hEq] at hev
        · refine Or.inr ⟨_, rfl, ?_, ?_⟩
          · rw [hEq]
            simp only [visibleState]
            omega
          · rintro ⟨ev, hev, hty⟩
            simp [hEq] at hev
            simp [hev] at hty
        · refine Or.inr ⟨_, rfl, ?_, ?_⟩
          · rw [hEq]
            simp only [visibleState]
            omega
          · rintro ⟨ev, hev, -⟩
            simp [hEq] at hev
        · refine Or.inr ⟨_, rfl, ?_, ?_⟩
          · rw [hEq]
            simp only [visibleState]
            omega
          · rintro ⟨ev, hev, -⟩
            simp [hEq] at hev
        · refine Or.inr ⟨_, rfl, ?_, fun _ => hcnt⟩
          rw [hEq]
          simp only [visibleState]
          omega

theorem no_early_stop (cfg : TrackerConfig) (s0 : Q) (hd : Handedness) :
    ∀ (fs : List (Q × Option (List Point))) (st : HandState) (ec mc : ℕ),
      fs.length + st.framesBelowThreshold < cfg.minDurationFrames →
      ∀ ev ∈ (runHand cfg s0 hd st ec mc fs).events, ev.type ≠ EventType.STOP := by
  intro fs
  induction fs with
  | nil =>
    intro st ec mc hlen ev hev
    simp [runHand] at hev
  | cons f rest ih =>
    intro st ec mc hlen ev hev hty
    obtain ⟨t, lm⟩ := f
    rcases analyzeHand_below_step cfg s0 t hd lm st ec mc with hE | ⟨r, hA, hble, hstop⟩
    · rw [runHand_cons_error hE] at hev
      simp at hev
    · rw [runHand_cons hA] at hev
      simp only [List.mem_append] at hev
      rcases hev with hev | hev
      · have := hstop ⟨ev, hev, hty⟩
        simp only [List.length_cons] at hlen
        omega
      · exact ih r.state r.eventCounter r.moveOrderCounter
          (by simp only [List.length_cons] at hlen; omega) ev hev hty

/-- C7 (liveness part amended, lower bound confirmed in its corrected form):
for a hand currently Moving at fixed position p (with a consistent buffer of
capacity smoothingFrames, positive threshold, positive debounce length, and a
fresh below-threshold counter), feeding n ≥ smoothingFrames + minDurationFrames
frames at that same position produces a Stop event, and no Stop can occur in
fewer than minDurationFrames such frames.  (With a stale below-threshold
counter the second part fails — see the counterexample theorem.) -/
theorem fixedPosition_eventually_stops (cfg : TrackerConfig) (s0 : Q)
    (hd : Handedness) (p : Point) (st : HandState) (ec mc n : ℕ) (ts : ℕ → Q)
    (hp : representativePoint p p = p)
    (hth : (0 : Q) < cfg.threshold)
    (hmin : 1 ≤ cfg.minDurationFrames)
    (hmov : st.isMoving = true)
    (hlp : st.lastPosition = some p)
    (hsize : st.velocityBuffer.size = cfg.smoothingFrames)
    (hlen : st.velocityBuffer.buffer.length ≤ cfg.smoothingFrames)
    (hbelow : st.framesBelowThreshold = 0)
    (hn : cfg.smoothingFrames + cfg.minDurationFrames ≤ n) :
    (∃ ev ∈ (runHand cfg s0 hd st ec mc (stillFeed p ts n)).events,
        ev.type = EventType.STOP) ∧
    (∀ j, j < cfg.minDurationFrames →
      ∀ ev ∈ (runHand cfg s0 hd st ec mc (stillFeed p ts j)).events,
        ev.type ≠ EventType.STOP) := by
  constructor
  · refine stillFeed_stops_aux cfg s0 hd p hp hth hmin n ts st ec mc
      st.velocityBuffer.buffer 0 hmov hlp ?_ ?_
    · rw [show List.replicate 0 (0 : Q) = [] from rfl, List.append_nil, Nat.add_zero,
        Nat.sub_eq_zero_of_le hlen, List.drop_zero, ← hsize]
    · by_cases h : 0 < cfg.smoothingFrames
      · rw [if_pos h]
        omega
      · rw [if_neg h]
        exact ⟨by omega, by omega⟩
  · intro j hj ev hev
    refine no_early_stop cfg s0 hd (stillFeed p ts j) st ec mc ?_ ev hev
    rw [stillFeed_length]
    omega

/-- Witness for the C7 theorem at a concrete input: configuration with
threshold 1, smoothing capacity 2, debounce 2; a Moving hand at the origin
with a saturated buffer [2, 2]; 4 still frames suffice for the Stop and no
Stop occurs within 1 frame. -/
theorem fixedPosition_eventually_stops_witness :
    (∃ ev ∈ (runHand ⟨1, 2, 2⟩ 0 Handedness.Left
        ⟨true, some 5, some ⟨0, 0, 0⟩, 0, ⟨[2, 2], 2⟩, 0, 2⟩ 0 1
        (stillFeed ⟨0, 0, 0⟩ Q.ofNat 4)).events, ev.type = EventType.STOP) ∧
    (∀ j, j < (2 : ℕ) →
      ∀ ev ∈ (runHand ⟨1, 2, 2⟩ 0 Handedness.Left
          ⟨true, some 5, some ⟨0, 0, 0⟩, 0, ⟨[2, 2], 2⟩, 0, 2⟩ 0 1
          (stillFeed ⟨0, 0, 0⟩ Q.ofNat j)).events, ev.type ≠ EventType.STOP) :=
  fixedPosition_eventually_stops ⟨1, 2, 2⟩ 0 Handedness.Left ⟨0, 0, 0⟩
    ⟨true, some 5, some ⟨0, 0, 0⟩, 0, ⟨[2, 2], 2⟩, 0, 2⟩ 0 1 4 Q.ofNat
    (by decide) (by decide) (by decide) rfl rfl rfl (by decide) rfl (by decide)

/-- Witness for the amended C9 theorem at a concrete input. -/
theorem wellformedInput_total_witness :
    okLandmarks (some (lmAt 0)) ∧ okLandmarks (none : Option (List Point)) ∧
    exceptOk ((MotionAnalyzer.create cfgA).processFrame 0 (some (lmAt 0)) none) = true :=
  ⟨Or.inr (by decide), trivial,
    wellformedInput_total (MotionAnalyzer.create cfgA) 0 (some (lmAt 0)) none
      (Or.inr (by decide)) trivial⟩

end MotionTracker
